import Mathlib

/-!
# Authorizer: the Reddit code-for-token exchange service

A shallow embedding of `cmd/authorizer/main.go`.

* Go `string` values are Lean `String`s, HTTP message bodies (`[]byte`,
  `io.Reader` contents) are lists of octets.
* A Go `(string, error)` result is kept as a pair of a string and an optional
  error, so that "partially populated" results are expressible.
* Calls that leave the process are explicit: the value `http.DefaultClient.Do`
  hands back is an input of the model, and every request handed to it is
  recorded in the result.
* `encoding/json` is an input too (`Runtime`); `Runtime.std` is a model of the
  Go decoder used to evaluate the program on concrete bodies.
* Log output is not part of any returned value and is left out.
-/

namespace Authorizer

/-- Octets of a message body. -/
abbrev Bytes := List UInt8

/-- UTF-8 octets of a text. -/
def bytes (s : String) : Bytes := s.data.flatMap String.utf8EncodeChar

/-! ## Data model (main.go, lines 19-41) -/

/-- `TokenResponse`, the `data` payload of a success envelope. -/
structure TokenResponse where
  Token : String
deriving DecidableEq, Repr

/-- `Response`, the envelope written to the browser. `Data` is an
`interface{}` that is either nil or a `*TokenResponse`. -/
structure Response where
  Status : String
  Data : Option TokenResponse
  Message : String
deriving DecidableEq, Repr

/-- `TokenRequest`, the inbound JSON shape. -/
structure TokenRequest where
  Code : String
deriving DecidableEq, Repr

/-- `RedditTokenRequest`, the form sent to the provider. -/
structure RedditTokenRequest where
  GrantType : String
  Code : String
  RedirectURI : String
deriving DecidableEq, Repr

/-- `RedditTokenResponse`, the part of the provider reply that is read. -/
structure RedditTokenResponse where
  AccessToken : String
deriving DecidableEq, Repr

/-! ## Library values -/

/-- Error values handed back by library calls. -/
inductive LibError where
  | EOF
  | ErrUnexpectedEOF
  | SyntaxError
  | UnmarshalTypeError
  | invalidRequest
  | transport (msg : String)
deriving DecidableEq, Repr

/-- Error values built by the program with `fmt.Errorf`: `errorf text` has no
wrapped cause; `wrapf text cause` comes from a format ending in `%w`, its
message is `text` followed by the message of `cause`. -/
inductive GoError where
  | errorf (text : String)
  | wrapf (text : String) (cause : LibError)
deriving DecidableEq, Repr

/-- An outbound `*http.Request`: method, URL, form values of the body, the
credentials given to `SetBasicAuth`, and the headers set explicitly. -/
structure HttpRequest where
  Method : String
  URL : String
  Form : List (String × String)
  BasicAuth : Option (String × String)
  Header : List (String × String)
deriving DecidableEq, Repr

/-- What `http.DefaultClient.Do(req)` hands back: an error, or a response with
its status code and the octets of its body. -/
inductive DoResult where
  | failed (err : LibError)
  | response (StatusCode : Nat) (Body : Bytes)
deriving DecidableEq, Repr

/-- The JSON decoding the program relies on. `decode field r` stands for
`json.NewDecoder(r).Decode(&v)` where `v` is a zero-valued struct whose only
field is a string tagged `field`: it yields the error, or the value of that
field after decoding, together with what is left unread in `r`. -/
structure Runtime where
  decode : String → Bytes → Except LibError String × Bytes

/-- `os.Getenv`. -/
abbrev Getenv := String → String

/-! ## Outbound request construction (main.go, lines 44-58) -/

/-- `query.Values(request)`: the form values named by the `url` tags. -/
def queryValues (request : RedditTokenRequest) : List (String × String) :=
  [("grant_type", request.GrantType), ("code", request.Code),
   ("redirect_uri", request.RedirectURI)]

/-- `http.NewRequest`. For the literal method and URL of this program the
call cannot fail. -/
def newRequest (method url : String) (form : List (String × String)) :
    Except LibError HttpRequest :=
  .ok ⟨method, url, form, none, []⟩

/-- `req.SetBasicAuth(username, password)`. -/
def HttpRequest.SetBasicAuth (req : HttpRequest) (username password : String) :
    HttpRequest :=
  ⟨req.Method, req.URL, req.Form, some (username, password), req.Header⟩

/-- `req.Header.Set(key, value)`. -/
def HttpRequest.SetHeader (req : HttpRequest) (key value : String) : HttpRequest :=
  ⟨req.Method, req.URL, req.Form, req.BasicAuth,
    req.Header.filter (fun kv => kv.1 ≠ key) ++ [(key, value)]⟩

/-! ## Formatting -/

/-- The `%v` rendering of a `[]byte`: decimal octets between brackets. -/
def fmtBytes (b : Bytes) : String :=
  "[" ++ " ".intercalate (b.map (fun c => toString c.toNat)) ++ "]"

/-! ## getTokenReddit (main.go, lines 43-86) -/

/-- Result of `getTokenReddit`: the Go pair `(string, error)` and the requests
handed to `http.DefaultClient.Do`. -/
structure Exchange where
  token : String
  err : Option GoError
  sent : List HttpRequest
deriving DecidableEq, Repr

/-- `json.NewDecoder(res.Body).Decode(&resData)` (lines 71-72). -/
def decodeRedditTokenResponse (rt : Runtime) (body : Bytes) :
    Except LibError RedditTokenResponse × Bytes :=
  match rt.decode "access_token" body with
  | (.ok s, rest) => (.ok ⟨s⟩, rest)
  | (.error e, rest) => (.error e, rest)

/-- `getTokenReddit(code)`. `wire` is what `http.DefaultClient.Do` hands back
for the request of this call. -/
def getTokenReddit (rt : Runtime) (getenv : Getenv) (wire : DoResult) (code : String) :
    Exchange :=
  let request : RedditTokenRequest :=
    ⟨"authorization_code", code, "localhost:3000/authorization"⟩
  let requestDataValues := queryValues request
  match newRequest "POST" "https://www.reddit.com/api/v1/access_token" requestDataValues with
  | .error err => ⟨"", some (.wrapf "Error when creating POST request for reddit: " err), []⟩
  | .ok req0 =>
    let req := ((req0.SetBasicAuth (getenv "REDDIT_APPLICATION_ID")
        (getenv "REDDIT_APPLICATION_SECRET")).SetHeader
          "Content-Type" "application/x-www-form-urlencoded").SetHeader
            "User-Agent" "Reddit Locker Server"
    match wire with
    | .failed err =>
      ⟨"", some (.wrapf "Error when requesting access token from reddit: " err), [req]⟩
    | .response statusCode resBody =>
      match decodeRedditTokenResponse rt resBody with
      | (.error err, _) =>
        ⟨"", some (.wrapf "Failed to parse reddit access token body: " err), [req]⟩
      | (.ok resData, unread) =>
        if statusCode ≠ 200 then
          -- `body, _ := ioutil.ReadAll(res.Body)` reads what the decoder left
          ⟨"", some (.errorf ("Request for token had an error (status "
              ++ toString statusCode ++ "): " ++ fmtBytes unread)), [req]⟩
        else if resData.AccessToken ≠ "" then
          ⟨resData.AccessToken, none, [req]⟩
        else
          ⟨"", some (.errorf "Request for token was unsuccessful"), [req]⟩

/-! ## postToken (main.go, lines 88-118) -/

/-- `context.BindJSON(&tokenRequest)`: decode the body, then validate the
`binding` tags, of which `TokenRequest` has none. -/
def bindJSON (rt : Runtime) (inbound : Bytes) : Except LibError TokenRequest :=
  match rt.decode "code" inbound with
  | (.ok s, _) => .ok ⟨s⟩
  | (.error e, _) => .error e

/-- What one run of `postToken` does: the status code and envelope written to
the caller, the arguments of its calls to `getTokenReddit`, and the requests
sent to the provider. -/
structure Handled where
  status : Nat
  body : Response
  exchanges : List String
  sent : List HttpRequest
deriving DecidableEq, Repr

/-- `postToken(context)` on an inbound request body. -/
def postToken (rt : Runtime) (getenv : Getenv) (wire : DoResult) (inbound : Bytes) :
    Handled :=
  match bindJSON rt inbound with
  | .error _ =>
    ⟨400, ⟨"error", none, "Malformed request, please try again"⟩, [], []⟩
  | .ok tokenRequest =>
    let r := getTokenReddit rt getenv wire tokenRequest.Code
    match r.err with
    | some _ =>
      ⟨500, ⟨"error", none,
        "Unexpected error when authenticating with Reddit, please try again"⟩,
        [tokenRequest.Code], r.sent⟩
    | none =>
      ⟨200, ⟨"success", some ⟨r.token⟩, ""⟩, [tokenRequest.Code], r.sent⟩


/-! ## A model of `encoding/json`

`json.NewDecoder(r).Decode(&v)` for the two structs of this program, after
scanner.go, decode.go and stream.go of the Go standard library. -/

namespace GoJSON

/-- Outcome of scanning a piece of input: the piece was well formed and `rest`
follows it, an octet was rejected and `rest` follows that octet, or the input
ended inside the piece. -/
inductive Res (α : Type) where
  | ok (a : α) (rest : Bytes)
  | bad (rest : Bytes)
  | short
deriving Repr

def Res.map {α β : Type} (f : α → β) : Res α → Res β
  | .ok a rest => .ok (f a) rest
  | .bad rest => .bad rest
  | .short => .short

/-- `isSpace` of scanner.go. -/
def isSpace (c : UInt8) : Bool :=
  c == 0x20 || c == 0x09 || c == 0x0D || c == 0x0A

def skipSpace : Bytes → Bytes
  | [] => []
  | c :: cs => if isSpace c then skipSpace cs else c :: cs

def isDigit (c : UInt8) : Bool := decide (0x30 ≤ c) && decide (c ≤ 0x39)

def isHex (c : UInt8) : Bool :=
  isDigit c || (decide (0x61 ≤ c) && decide (c ≤ 0x66))
    || (decide (0x41 ≤ c) && decide (c ≤ 0x46))

/-- Scanner states inside a string literal. -/
inductive StrState where
  | plain
  | esc
  | hex (left : Nat)

/-- The string states of scanner.go, from after the opening quote: yields the
octets between the quotes, escapes left as written. -/
def scanStr : StrState → Bytes → Bytes → Res Bytes
  | _, [], _ => .short
  | .plain, c :: cs, acc =>
    if c == 0x22 then .ok acc.reverse cs
    else if c == 0x5C then scanStr .esc cs (c :: acc)
    else if c < 0x20 then .bad cs
    else scanStr .plain cs (c :: acc)
  | .esc, c :: cs, acc =>
    if c == 0x62 || c == 0x66 || c == 0x6E || c == 0x72 || c == 0x74
        || c == 0x5C || c == 0x2F || c == 0x22 then
      scanStr .plain cs (c :: acc)
    else if c == 0x75 then scanStr (.hex 4) cs (c :: acc)
    else .bad cs
  | .hex n, c :: cs, acc =>
    if isHex c then scanStr (if n ≤ 1 then .plain else .hex (n - 1)) cs (c :: acc)
    else .bad cs

/-- Scanner states inside a number. -/
inductive NumState where
  | neg
  | zero
  | int
  | dot
  | frac
  | e
  | eSign
  | exp

/-- The numeric states of scanner.go; the octet that ends the number is left
in the input. -/
def scanNum : NumState → Bytes → Res Unit
  | .neg, [] => .short
  | .neg, c :: cs =>
    if c == 0x30 then scanNum .zero cs
    else if isDigit c then scanNum .int cs
    else .bad cs
  | .zero, [] => .ok () []
  | .zero, c :: cs =>
    if c == 0x2E then scanNum .dot cs
    else if c == 0x65 || c == 0x45 then scanNum .e cs
    else .ok () (c :: cs)
  | .int, [] => .ok () []
  | .int, c :: cs =>
    if isDigit c then scanNum .int cs
    else if c == 0x2E then scanNum .dot cs
    else if c == 0x65 || c == 0x45 then scanNum .e cs
    else .ok () (c :: cs)
  | .dot, [] => .short
  | .dot, c :: cs => if isDigit c then scanNum .frac cs else .bad cs
  | .frac, [] => .ok () []
  | .frac, c :: cs =>
    if isDigit c then scanNum .frac cs
    else if c == 0x65 || c == 0x45 then scanNum .e cs
    else .ok () (c :: cs)
  | .e, [] => .short
  | .e, c :: cs =>
    if c == 0x2B || c == 0x2D then scanNum .eSign cs
    else if isDigit c then scanNum .exp cs
    else .bad cs
  | .eSign, [] => .short
  | .eSign, c :: cs => if isDigit c then scanNum .exp cs else .bad cs
  | .exp, [] => .ok () []
  | .exp, c :: cs => if isDigit c then scanNum .exp cs else .ok () (c :: cs)

/-- The rest of a literal `true`, `false` or `null`. -/
def scanLit : Bytes → Bytes → Res Unit
  | [], input => .ok () input
  | _ :: _, [] => .short
  | p :: ps, c :: cs => if c == p then scanLit ps cs else .bad cs

/-- What decoding into a string field needs to know of a member value. -/
inductive Member where
  | null
  | string (raw : Bytes)
  | other
deriving Repr

/-- A scanned value; of an object its members in order, keys as written. -/
inductive Value where
  | null
  | bool
  | number
  | string (raw : Bytes)
  | array
  | object (members : List (Bytes × Member))
deriving Repr

def Value.toMember : Value → Member
  | .null => .null
  | .string raw => .string raw
  | _ => .other

/-- `maxNestingDepth` of scanner.go. -/
def maxNestingDepth : Nat := 10000

mutual

/-- One JSON value, leading space included. `depth` counts the containers
that are open; the first argument bounds the recursion, and twice the length
of the input plus one is enough of it (`scanValue_fuel`). -/
def scanValue : Nat → Nat → Bytes → Res Value
  | 0, _, _ => .short
  | fuel + 1, depth, input =>
    match skipSpace input with
    | [] => .short
    | c :: cs =>
      if c == 0x7B then
        if depth ≥ maxNestingDepth then .bad cs
        else
          match skipSpace cs with
          | [] => .short
          | d :: ds =>
            if d == 0x7D then .ok (.object []) ds
            else scanMembers fuel (depth + 1) (d :: ds) []
      else if c == 0x5B then
        if depth ≥ maxNestingDepth then .bad cs
        else
          match skipSpace cs with
          | [] => .short
          | d :: ds =>
            if d == 0x5D then .ok .array ds
            else scanElems fuel (depth + 1) (d :: ds)
      else if c == 0x22 then (scanStr .plain cs []).map Value.string
      else if c == 0x2D then (scanNum .neg cs).map (fun _ => Value.number)
      else if c == 0x30 then (scanNum .zero cs).map (fun _ => Value.number)
      else if isDigit c then (scanNum .int cs).map (fun _ => Value.number)
      else if c == 0x74 then (scanLit [0x72, 0x75, 0x65] cs).map (fun _ => Value.bool)
      else if c == 0x66 then
        (scanLit [0x61, 0x6C, 0x73, 0x65] cs).map (fun _ => Value.bool)
      else if c == 0x6E then (scanLit [0x75, 0x6C, 0x6C] cs).map (fun _ => Value.null)
      else .bad cs

/-- The members of an object from the start of a key on. -/
def scanMembers : Nat → Nat → Bytes → List (Bytes × Member) → Res Value
  | 0, _, _, _ => .short
  | fuel + 1, depth, input, acc =>
    match skipSpace input with
    | [] => .short
    | c :: cs =>
      if c != 0x22 then .bad cs
      else
        match scanStr .plain cs [] with
        | .short => .short
        | .bad r => .bad r
        | .ok key afterKey =>
          match skipSpace afterKey with
          | [] => .short
          | d :: ds =>
            if d != 0x3A then .bad ds
            else
              match scanValue fuel depth ds with
              | .short => .short
              | .bad r => .bad r
              | .ok v afterValue =>
                match skipSpace afterValue with
                | [] => .short
                | e :: es =>
                  if e == 0x2C then scanMembers fuel depth es (acc ++ [(key, v.toMember)])
                  else if e == 0x7D then .ok (.object (acc ++ [(key, v.toMember)])) es
                  else .bad es

/-- The elements of an array from the start of an element on. -/
def scanElems : Nat → Nat → Bytes → Res Value
  | 0, _, _ => .short
  | fuel + 1, depth, input =>
    match scanValue fuel depth input with
    | .short => .short
    | .bad r => .bad r
    | .ok _ afterValue =>
      match skipSpace afterValue with
      | [] => .short
      | e :: es =>
        if e == 0x2C then scanElems fuel depth es
        else if e == 0x5D then .ok .array es
        else .bad es

end


/-! ### Unquoting (decode.go, `unquoteBytes`) -/

def hexVal (c : UInt8) : Nat :=
  if isDigit c then c.toNat - 0x30
  else if decide (0x61 ≤ c) && decide (c ≤ 0x66) then c.toNat - 0x61 + 10
  else c.toNat - 0x41 + 10

/-- `getu4`: the code unit of a leading `\uXXXX`, if there is one. -/
def getu4 : Bytes → Option Nat
  | b :: u :: h1 :: h2 :: h3 :: h4 :: _ =>
    if b == 0x5C && u == 0x75 && isHex h1 && isHex h2 && isHex h3 && isHex h4 then
      some (((hexVal h1 * 16 + hexVal h2) * 16 + hexVal h3) * 16 + hexVal h4)
    else none
  | _ => none

/-- `unicode.ReplacementChar`. -/
def replacementChar : Nat := 0xFFFD

def isCont (c : UInt8) : Bool := decide (0x80 ≤ c) && decide (c ≤ 0xBF)

/-- `utf8.DecodeRune`: the code point at the head of the input and its width;
`(replacementChar, 1)` when the head is not a well-formed encoding. -/
def decodeRune : Bytes → Nat × Nat
  | [] => (replacementChar, 0)
  | b0 :: rest =>
    if b0 < 0x80 then (b0.toNat, 1)
    else if decide (0xC2 ≤ b0) && decide (b0 ≤ 0xDF) then
      match rest with
      | b1 :: _ =>
        if isCont b1 then ((b0.toNat % 32) * 64 + b1.toNat % 64, 2)
        else (replacementChar, 1)
      | _ => (replacementChar, 1)
    else if decide (0xE0 ≤ b0) && decide (b0 ≤ 0xEF) then
      match rest with
      | b1 :: b2 :: _ =>
        let lo : UInt8 := if b0 == 0xE0 then 0xA0 else 0x80
        let hi : UInt8 := if b0 == 0xED then 0x9F else 0xBF
        if decide (lo ≤ b1) && decide (b1 ≤ hi) && isCont b2 then
          (((b0.toNat % 16) * 64 + b1.toNat % 64) * 64 + b2.toNat % 64, 3)
        else (replacementChar, 1)
      | _ => (replacementChar, 1)
    else if decide (0xF0 ≤ b0) && decide (b0 ≤ 0xF4) then
      match rest with
      | b1 :: b2 :: b3 :: _ =>
        let lo : UInt8 := if b0 == 0xF0 then 0x90 else 0x80
        let hi : UInt8 := if b0 == 0xF4 then 0x8F else 0xBF
        if decide (lo ≤ b1) && decide (b1 ≤ hi) && isCont b2 && isCont b3 then
          ((((b0.toNat % 8) * 64 + b1.toNat % 64) * 64 + b2.toNat % 64) * 64
            + b3.toNat % 64, 4)
        else (replacementChar, 1)
      | _ => (replacementChar, 1)
    else (replacementChar, 1)

/-- The character an escape letter stands for. -/
def escapeChar (c : UInt8) : Char :=
  if c == 0x62 then Char.ofNat 8
  else if c == 0x66 then Char.ofNat 12
  else if c == 0x6E then Char.ofNat 10
  else if c == 0x72 then Char.ofNat 13
  else if c == 0x74 then Char.ofNat 9
  else Char.ofNat c.toNat

/-- `unquoteBytes` on the octets between the quotes of a scanned string. -/
def unquote : Nat → Bytes → List Char → List Char
  | 0, _, acc => acc.reverse
  | _ + 1, [], acc => acc.reverse
  | fuel + 1, c :: cs, acc =>
    if c == 0x5C then
      match cs with
      | [] => acc.reverse
      | e :: es =>
        if e == 0x75 then
          let rr := (getu4 (c :: cs)).getD replacementChar
          let after := es.drop 4
          if 0xD800 ≤ rr ∧ rr < 0xE000 then
            match getu4 after with
            | some rr1 =>
              if rr < 0xDC00 ∧ 0xDC00 ≤ rr1 ∧ rr1 < 0xE000 then
                unquote fuel (after.drop 6)
                  (Char.ofNat ((rr - 0xD800) * 1024 + (rr1 - 0xDC00) + 0x10000) :: acc)
              else unquote fuel after (Char.ofNat replacementChar :: acc)
            | none => unquote fuel after (Char.ofNat replacementChar :: acc)
          else unquote fuel after (Char.ofNat rr :: acc)
        else unquote fuel es (escapeChar e :: acc)
    else
      let (r, size) := decodeRune (c :: cs)
      unquote fuel (cs.drop (size - 1)) (Char.ofNat r :: acc)

/-- The Go string a scanned string literal denotes. -/
def unquoteString (raw : Bytes) : String :=
  ⟨unquote raw.length raw []⟩

/-! ### Field lookup (`foldName`) -/

/-- Case folding of a key character: ASCII letters to upper case, and the two
characters whose simple fold is an ASCII letter. -/
def foldRune (c : Char) : Char :=
  if 0x61 ≤ c.toNat ∧ c.toNat ≤ 0x7A then Char.ofNat (c.toNat - 0x20)
  else if c.toNat = 0x17F then Char.ofNat 0x53
  else if c.toNat = 0x212A then Char.ofNat 0x4B
  else c

/-- Whether an object key names the field tagged `field`. -/
def matchesField (field : String) (key : String) : Bool :=
  key.data.map foldRune == field.data.map foldRune

/-! ### Decoding into a struct with one string field -/

/-- The members of an object stored into the field: its value after the
members so far and whether a type error was saved; later members override. -/
def storeMembers (field : String) :
    List (Bytes × Member) → String × Bool → String × Bool
  | [], st => st
  | (key, m) :: ms, (val, failed) =>
    if matchesField field (unquoteString key) then
      match m with
      | .string raw => storeMembers field ms (unquoteString raw, failed)
      | .null => storeMembers field ms (val, failed)
      | .other => storeMembers field ms (val, true)
    else storeMembers field ms (val, failed)

/-- `decodeState.unmarshal` of a scanned value into the zero-valued struct. -/
def unmarshal (field : String) : Value → Except LibError String
  | .null => .ok ""
  | .object members =>
    match storeMembers field members ("", false) with
    | (val, false) => .ok val
    | (_, true) => .error .UnmarshalTypeError
  | _ => .error .UnmarshalTypeError

/-! ### The decoder and its reader (stream.go) -/

/-- Size of the decoder buffer once it holds `n` octets: it grows from 512 to
twice its size plus 512. -/
def bufferSize : Nat → Nat → Nat → Nat
  | 0, cap, _ => cap
  | fuel + 1, cap, n => if n ≤ cap then cap else bufferSize fuel (2 * cap + 512) n

/-- Number of octets taken from the reader once the scanner has looked at `n`
octets: the reader is read a buffer at a time. -/
def readAhead (n : Nat) : Nat := bufferSize n 512 n

/-- `json.NewDecoder(r).Decode(&v)` for a zero-valued struct `v` whose only
field is a string tagged `field`: the first JSON value of `r` is read and
stored; what follows it is not looked at. Yields the error or the field, and
what is left unread in `r`. -/
def decode (field : String) (r : Bytes) : Except LibError String × Bytes :=
  match scanValue (2 * r.length + 1) 0 r with
  | .short =>
    (.error (if skipSpace r = [] then .EOF else .ErrUnexpectedEOF), [])
  | .bad rest => (.error .SyntaxError, r.drop (readAhead (r.length - rest.length)))
  | .ok v rest =>
    let consumed := r.length - rest.length
    let looked :=
      match v with
      | .object _ => consumed
      | .array => consumed
      | _ => if rest = [] then consumed else consumed + 1
    (unmarshal field v, r.drop (readAhead looked))

end GoJSON

/-- `json.Valid`: the input is one JSON value, space around it allowed. -/
def GoJSON.valid (data : Bytes) : Bool :=
  match GoJSON.scanValue (2 * data.length + 1) 0 data with
  | .ok _ rest => GoJSON.skipSpace rest == []
  | _ => false

/-- The runtime whose decoder is the model of `encoding/json`. -/
def Runtime.std : Runtime := ⟨GoJSON.decode⟩

/-! ## Serialization of the envelope -/

/-- JSON values an envelope serializes to. -/
inductive JSONValue where
  | string (s : String)
  | object (fields : List (String × String))
deriving DecidableEq, Repr

/-- The members `json.Marshal` writes for a `Response`, after its struct tags:
`status` always, `data` and `message` only when not empty (`omitempty`). -/
def Response.marshal (r : Response) : List (String × JSONValue) :=
  [("status", .string r.Status)]
    ++ (match r.Data with
        | some d => [("data", .object [("token", d.Token)])]
        | none => [])
    ++ (if r.Message = "" then [] else [("message", .string r.Message)])

/-! ## Values returned to the caller -/

/-- Whether `needle` occurs in `hay` as a contiguous piece. -/
def occursIn (needle hay : String) : Prop := needle.data <:+: hay.data

instance (needle hay : String) : Decidable (occursIn needle hay) := by
  unfold occursIn
  infer_instance

/-- The texts of a response: the status code in decimal and every string of
the envelope. -/
def Handled.returned (h : Handled) : List String :=
  [toString h.status, h.body.Status, h.body.Message]
    ++ (match h.body.Data with
        | some d => [d.Token]
        | none => [])

/-- The texts an envelope can hold that are literals of the program. -/
def fixedTexts : List String :=
  ["200", "400", "500", "success", "error", "",
   "Malformed request, please try again",
   "Unexpected error when authenticating with Reddit, please try again"]


/-- The request `getTokenReddit` hands to the client. -/
def outbound (getenv : Getenv) (code : String) : HttpRequest :=
  ((HttpRequest.mk "POST" "https://www.reddit.com/api/v1/access_token"
      (queryValues ⟨"authorization_code", code, "localhost:3000/authorization"⟩)
      none []).SetBasicAuth (getenv "REDDIT_APPLICATION_ID")
        (getenv "REDDIT_APPLICATION_SECRET")
    |>.SetHeader "Content-Type" "application/x-www-form-urlencoded"
    |>.SetHeader "User-Agent" "Reddit Locker Server")

/-! ## Properties of the decoder model -/

namespace GoJSON

theorem skipSpace_length_le (l : Bytes) : (skipSpace l).length ≤ l.length := by
  induction l with
  | nil => simp [skipSpace]
  | cons c cs ih =>
    unfold skipSpace
    split
    · exact le_trans ih (Nat.le_succ _)
    · exact le_rfl

theorem skipSpace_cons_length {l : Bytes} {c : UInt8} {cs : Bytes}
    (h : skipSpace l = c :: cs) : cs.length < l.length := by
  have := skipSpace_length_le l
  rw [h] at this
  simpa using this

theorem scanStr_length (st : StrState) (input acc : Bytes) (raw rest : Bytes)
    (h : scanStr st input acc = .ok raw rest) : rest.length < input.length := by
  induction input generalizing st acc with
  | nil => cases st <;> simp [scanStr] at h
  | cons c cs ih =>
    cases st with
    | plain =>
      unfold scanStr at h
      split_ifs at h
      · cases h; simp
      · exact lt_trans (ih _ _ h) (by simp)
      · exact lt_trans (ih _ _ h) (by simp)
    | esc =>
      unfold scanStr at h
      split_ifs at h
      · exact lt_trans (ih _ _ h) (by simp)
      · exact lt_trans (ih _ _ h) (by simp)
    | hex n =>
      unfold scanStr at h
      split_ifs at h
      · exact lt_trans (ih _ _ h) (by simp)
      · exact lt_trans (ih _ _ h) (by simp)

theorem scanNum_length (st : NumState) (input : Bytes) (u : Unit) (rest : Bytes)
    (h : scanNum st input = .ok u rest) : rest.length ≤ input.length := by
  induction input generalizing st with
  | nil => cases st <;> simp [scanNum] at h <;> simp [h]
  | cons c cs ih =>
    cases st <;> unfold scanNum at h <;> split_ifs at h <;>
      first
        | exact le_trans (ih _ h) (by simp)
        | (cases h; simp)

theorem scanLit_length (p input : Bytes) (u : Unit) (rest : Bytes)
    (h : scanLit p input = .ok u rest) : rest.length ≤ input.length := by
  induction p generalizing input with
  | nil => simp [scanLit] at h; simp [h]
  | cons q qs ih =>
    cases input with
    | nil => simp [scanLit] at h
    | cons c cs =>
      unfold scanLit at h
      split_ifs at h
      exact le_trans (ih _ h) (by simp)

theorem Res.map_ok {α β : Type} (f : α → β) (r : Res α) (b : β) (rest : Bytes)
    (h : r.map f = .ok b rest) : ∃ a, r = .ok a rest := by
  cases r with
  | ok a rest2 =>
    simp [Res.map] at h
    exact ⟨a, by rw [h.2]⟩
  | bad rest2 => simp [Res.map] at h
  | short => simp [Res.map] at h

theorem scan_fuel (fuel : Nat) :
    (∀ depth input, 2 * input.length + 1 ≤ fuel →
      (∀ k, scanValue (fuel + k) depth input = scanValue fuel depth input) ∧
      (∀ v rest, scanValue fuel depth input = .ok v rest → rest.length < input.length)) ∧
    (∀ depth input acc, 2 * input.length + 2 ≤ fuel →
      (∀ k, scanMembers (fuel + k) depth input acc = scanMembers fuel depth input acc) ∧
      (∀ v rest, scanMembers fuel depth input acc = .ok v rest →
        rest.length < input.length)) ∧
    (∀ depth input, 2 * input.length + 2 ≤ fuel →
      (∀ k, scanElems (fuel + k) depth input = scanElems fuel depth input) ∧
      (∀ v rest, scanElems fuel depth input = .ok v rest → rest.length < input.length)) := by
  induction fuel with
  | zero =>
    refine ⟨?_, ?_, ?_⟩ <;> intros <;> omega
  | succ fuel ih =>
    obtain ⟨ihV, ihM, ihE⟩ := ih
    have hk : ∀ k, fuel + 1 + k = (fuel + k) + 1 := by intro k; omega
    refine ⟨?_, ?_, ?_⟩
    · intro depth input hlen
      constructor
      · intro k
        rw [hk, scanValue, scanValue]
        cases hs : skipSpace input with
        | nil => rfl
        | cons c cs =>
          have hcs := skipSpace_cons_length hs
          simp only []
          by_cases h1 : (c == 0x7B) = true
          · rw [if_pos h1, if_pos h1]
            by_cases h2 : depth ≥ maxNestingDepth
            · rw [if_pos h2, if_pos h2]
            · rw [if_neg h2, if_neg h2]
              cases hs2 : skipSpace cs with
              | nil => rfl
              | cons d ds =>
                have hds := skipSpace_cons_length hs2
                simp only []
                by_cases h3 : (d == 0x7D) = true
                · rw [if_pos h3, if_pos h3]
                · rw [if_neg h3, if_neg h3]
                  exact (ihM (depth + 1) (d :: ds) [] (by simp; omega)).1 k
          · rw [if_neg h1, if_neg h1]
            by_cases h1b : (c == 0x5B) = true
            · rw [if_pos h1b, if_pos h1b]
              by_cases h2 : depth ≥ maxNestingDepth
              · rw [if_pos h2, if_pos h2]
              · rw [if_neg h2, if_neg h2]
                cases hs2 : skipSpace cs with
                | nil => rfl
                | cons d ds =>
                  have hds := skipSpace_cons_length hs2
                  simp only []
                  by_cases h3 : (d == 0x5D) = true
                  · rw [if_pos h3, if_pos h3]
                  · rw [if_neg h3, if_neg h3]
                    exact (ihE (depth + 1) (d :: ds) (by simp; omega)).1 k
            · rw [if_neg h1b, if_neg h1b]
      · intro v rest h
        rw [scanValue] at h
        cases hs : skipSpace input with
        | nil => rw [hs] at h; cases h
        | cons c cs =>
          have hcs := skipSpace_cons_length hs
          rw [hs] at h
          simp only [] at h
          by_cases h1 : (c == 0x7B) = true
          · rw [if_pos h1] at h
            by_cases h2 : depth ≥ maxNestingDepth
            · rw [if_pos h2] at h; cases h
            · rw [if_neg h2] at h
              cases hs2 : skipSpace cs with
              | nil => rw [hs2] at h; cases h
              | cons d ds =>
                have hds := skipSpace_cons_length hs2
                rw [hs2] at h
                simp only [] at h
                by_cases h3 : (d == 0x7D) = true
                · rw [if_pos h3] at h
                  cases h
                  omega
                · rw [if_neg h3] at h
                  have := (ihM (depth + 1) (d :: ds) [] (by simp; omega)).2 v rest h
                  simp at this
                  omega
          · rw [if_neg h1] at h
            by_cases h1b : (c == 0x5B) = true
            · rw [if_pos h1b] at h
              by_cases h2 : depth ≥ maxNestingDepth
              · rw [if_pos h2] at h; cases h
              · rw [if_neg h2] at h
                cases hs2 : skipSpace cs with
                | nil => rw [hs2] at h; cases h
                | cons d ds =>
                  have hds := skipSpace_cons_length hs2
                  rw [hs2] at h
                  simp only [] at h
                  by_cases h3 : (d == 0x5D) = true
                  · rw [if_pos h3] at h
                    cases h
                    omega
                  · rw [if_neg h3] at h
                    have := (ihE (depth + 1) (d :: ds) (by simp; omega)).2 v rest h
                    simp at this
                    omega
            · rw [if_neg h1b] at h
              split_ifs at h
              · obtain ⟨a, ha⟩ := Res.map_ok _ _ _ _ h
                have := scanStr_length _ _ _ _ _ ha
                omega
              · obtain ⟨a, ha⟩ := Res.map_ok _ _ _ _ h
                have := scanNum_length _ _ _ _ ha
                omega
              · obtain ⟨a, ha⟩ := Res.map_ok _ _ _ _ h
                have := scanNum_length _ _ _ _ ha
                omega
              · obtain ⟨a, ha⟩ := Res.map_ok _ _ _ _ h
                have := scanNum_length _ _ _ _ ha
                omega
              · obtain ⟨a, ha⟩ := Res.map_ok _ _ _ _ h
                have := scanLit_length _ _ _ _ ha
                omega
              · obtain ⟨a, ha⟩ := Res.map_ok _ _ _ _ h
                have := scanLit_length _ _ _ _ ha
                omega
              · obtain ⟨a, ha⟩ := Res.map_ok _ _ _ _ h
                have := scanLit_length _ _ _ _ ha
                omega
    · intro depth input acc hlen
      constructor
      · intro k
        rw [hk, scanMembers, scanMembers]
        cases hs : skipSpace input with
        | nil => rfl
        | cons c cs =>
          have hcs := skipSpace_cons_length hs
          simp only []
          by_cases h1 : (c != 0x22) = true
          · rw [if_pos h1, if_pos h1]
          · rw [if_neg h1, if_neg h1]
            cases hstr : scanStr .plain cs [] with
            | short => rfl
            | bad r => rfl
            | ok key afterKey =>
              have hkey := scanStr_length _ _ _ _ _ hstr
              simp only []
              cases hs2 : skipSpace afterKey with
              | nil => rfl
              | cons d ds =>
                have hds := skipSpace_cons_length hs2
                simp only []
                by_cases h2 : (d != 0x3A) = true
                · rw [if_pos h2, if_pos h2]
                · rw [if_neg h2, if_neg h2]
                  rw [(ihV depth ds (by omega)).1 k]
                  cases hv : scanValue fuel depth ds with
                  | short => rfl
                  | bad r => rfl
                  | ok v afterValue =>
                    have hav := (ihV depth ds (by omega)).2 v afterValue hv
                    simp only []
                    cases hs3 : skipSpace afterValue with
                    | nil => rfl
                    | cons e es =>
                      have hes := skipSpace_cons_length hs3
                      simp only []
                      by_cases h3 : (e == 0x2C) = true
                      · rw [if_pos h3, if_pos h3]
                        exact (ihM depth es _ (by omega)).1 k
                      · rw [if_neg h3, if_neg h3]
      · intro v0 rest h
        rw [scanMembers] at h
        cases hs : skipSpace input with
        | nil => rw [hs] at h; cases h
        | cons c cs =>
          have hcs := skipSpace_cons_length hs
          rw [hs] at h
          simp only [] at h
          by_cases h1 : (c != 0x22) = true
          · rw [if_pos h1] at h; cases h
          · rw [if_neg h1] at h
            cases hstr : scanStr .plain cs [] with
            | short => rw [hstr] at h; cases h
            | bad r => rw [hstr] at h; cases h
            | ok key afterKey =>
              have hkey := scanStr_length _ _ _ _ _ hstr
              rw [hstr] at h
              simp only [] at h
              cases hs2 : skipSpace afterKey with
              | nil => rw [hs2] at h; cases h
              | cons d ds =>
                have hds := skipSpace_cons_length hs2
                rw [hs2] at h
                simp only [] at h
                by_cases h2 : (d != 0x3A) = true
                · rw [if_pos h2] at h; cases h
                · rw [if_neg h2] at h
                  cases hv : scanValue fuel depth ds with
                  | short => rw [hv] at h; cases h
                  | bad r => rw [hv] at h; cases h
                  | ok v afterValue =>
                    have hav := (ihV depth ds (by omega)).2 v afterValue hv
                    rw [hv] at h
                    simp only [] at h
                    cases hs3 : skipSpace afterValue with
                    | nil => rw [hs3] at h; cases h
                    | cons e es =>
                      have hes := skipSpace_cons_length hs3
                      rw [hs3] at h
                      simp only [] at h
                      by_cases h3 : (e == 0x2C) = true
                      · rw [if_pos h3] at h
                        have := (ihM depth es _ (by omega)).2 v0 rest h
                        omega
                      · rw [if_neg h3] at h
                        split_ifs at h
                        cases h
                        omega
    · intro depth input hlen
      constructor
      · intro k
        rw [hk, scanElems, scanElems]
        rw [(ihV depth input (by omega)).1 k]
        cases hv : scanValue fuel depth input with
        | short => rfl
        | bad r => rfl
        | ok v afterValue =>
          have hav := (ihV depth input (by omega)).2 v afterValue hv
          simp only []
          cases hs3 : skipSpace afterValue with
          | nil => rfl
          | cons e es =>
            have hes := skipSpace_cons_length hs3
            simp only []
            by_cases h3 : (e == 0x2C) = true
            · rw [if_pos h3, if_pos h3]
              exact (ihE depth es (by omega)).1 k
            · rw [if_neg h3, if_neg h3]
      · intro v0 rest h
        rw [scanElems] at h
        cases hv : scanValue fuel depth input with
        | short => rw [hv] at h; cases h
        | bad r => rw [hv] at h; cases h
        | ok v afterValue =>
          have hav := (ihV depth input (by omega)).2 v afterValue hv
          rw [hv] at h
          simp only [] at h
          cases hs3 : skipSpace afterValue with
          | nil => rw [hs3] at h; cases h
          | cons e es =>
            have hes := skipSpace_cons_length hs3
            rw [hs3] at h
            simp only [] at h
            by_cases h3 : (e == 0x2C) = true
            · rw [if_pos h3] at h
              have := (ihE depth es (by omega)).2 v0 rest h
              omega
            · rw [if_neg h3] at h
              split_ifs at h
              cases h
              omega

/-- Fuel beyond twice the length of the input does not change what the
scanner finds. -/
theorem scanValue_fuel (depth : Nat) (input : Bytes) (k : Nat) :
    scanValue (2 * input.length + 1 + k) depth input
      = scanValue (2 * input.length + 1) depth input :=
  ((scan_fuel (2 * input.length + 1)).1 depth input le_rfl).1 k

theorem decodeRune_size_pos (c : UInt8) (cs : Bytes) : 1 ≤ (decodeRune (c :: cs)).2 := by
  unfold decodeRune
  simp only []
  repeat' split
  all_goals simp

/-- Fuel beyond the length of the input does not change `unquote`. -/
theorem unquote_fuel (fuel : Nat) (raw : Bytes) (acc : List Char) (k : Nat)
    (h : raw.length ≤ fuel) : unquote (fuel + k) raw acc = unquote fuel raw acc := by
  induction fuel generalizing raw acc with
  | zero =>
    have : raw = [] := List.length_eq_zero.mp (Nat.le_zero.mp h)
    subst this
    cases k <;> simp [unquote]
  | succ fuel ih =>
    have hk : fuel + 1 + k = (fuel + k) + 1 := by omega
    cases raw with
    | nil => rw [hk]; simp [unquote]
    | cons c cs =>
      have hcs : cs.length ≤ fuel := by simpa using h
      have hd : (cs.drop ((decodeRune (c :: cs)).2 - 1)).length ≤ fuel := by
        simp [List.length_drop]
        omega
      cases cs with
      | nil =>
        rw [hk]
        simp only [unquote]
        split_ifs
        · rfl
        · exact ih _ _ hd
      | cons e es =>
        have hes : es.length ≤ fuel := by
          simp at hcs
          omega
        have hd4 : (es.drop 4).length ≤ fuel := by
          simp [List.length_drop]
          omega
        have hd6 : ((es.drop 4).drop 6).length ≤ fuel := by
          simp [List.length_drop]
          omega
        rw [hk]
        simp only [unquote]
        simp only [ih _ _ hd4, ih _ _ hd6, ih _ _ hes, ih _ _ hd]

/-- The buffer the reader fills holds what the scanner has looked at. -/
theorem le_bufferSize (fuel cap n : Nat) (h : n ≤ cap + fuel) : n ≤ bufferSize fuel cap n := by
  induction fuel generalizing cap with
  | zero => simpa [bufferSize] using h
  | succ fuel ih =>
    unfold bufferSize
    split
    · assumption
    · exact ih _ (by omega)

theorem le_readAhead (n : Nat) : n ≤ readAhead n :=
  le_bufferSize n 512 n (by omega)

end GoJSON

theorem GoJSON.bufferSize_ge (fuel cap n : Nat) : cap ≤ GoJSON.bufferSize fuel cap n := by
  induction fuel generalizing cap with
  | zero => simp [GoJSON.bufferSize]
  | succ k ih =>
    unfold GoJSON.bufferSize
    split
    · exact le_rfl
    · exact le_trans (by omega) (ih (2 * cap + 512))

/-- What the decoder leaves unread is the body without a first part of at
least 512 octets, or without all of it when it is shorter. -/
theorem GoJSON.decode_unread (field : String) (r : Bytes) :
    ∃ n, 512 ≤ n ∧ (GoJSON.decode field r).2 = r.drop n := by
  unfold GoJSON.decode
  split
  · exact ⟨r.length + 512, by omega, (List.drop_eq_nil_of_le (by omega)).symm⟩
  · exact ⟨_, GoJSON.bufferSize_ge _ 512 _, rfl⟩
  · exact ⟨_, GoJSON.bufferSize_ge _ 512 _, rfl⟩

/-! ## Properties of getTokenReddit -/

theorem getTokenReddit_failed (rt : Runtime) (getenv : Getenv) (err : LibError)
    (code : String) :
    getTokenReddit rt getenv (.failed err) code
      = ⟨"", some (.wrapf "Error when requesting access token from reddit: " err),
          [outbound getenv code]⟩ := by
  rfl

theorem getTokenReddit_undecodable (rt : Runtime) (getenv : Getenv) (statusCode : Nat)
    (body unread : Bytes) (e : LibError) (code : String)
    (hdec : rt.decode "access_token" body = (.error e, unread)) :
    getTokenReddit rt getenv (.response statusCode body) code
      = ⟨"", some (.wrapf "Failed to parse reddit access token body: " e),
          [outbound getenv code]⟩ := by
  simp [getTokenReddit, decodeRedditTokenResponse, newRequest, hdec, outbound]

theorem getTokenReddit_status (rt : Runtime) (getenv : Getenv) (statusCode : Nat)
    (body unread : Bytes) (s : String) (code : String)
    (hdec : rt.decode "access_token" body = (.ok s, unread)) (hstatus : statusCode ≠ 200) :
    getTokenReddit rt getenv (.response statusCode body) code
      = ⟨"", some (.errorf ("Request for token had an error (status "
            ++ toString statusCode ++ "): " ++ fmtBytes unread)),
          [outbound getenv code]⟩ := by
  simp [getTokenReddit, decodeRedditTokenResponse, newRequest, hdec, outbound, hstatus]

theorem getTokenReddit_token (rt : Runtime) (getenv : Getenv)
    (body unread : Bytes) (t : String) (code : String)
    (hdec : rt.decode "access_token" body = (.ok t, unread)) (ht : t ≠ "") :
    getTokenReddit rt getenv (.response 200 body) code
      = ⟨t, none, [outbound getenv code]⟩ := by
  simp [getTokenReddit, decodeRedditTokenResponse, newRequest, hdec, outbound, ht]

theorem getTokenReddit_empty (rt : Runtime) (getenv : Getenv)
    (body unread : Bytes) (code : String)
    (hdec : rt.decode "access_token" body = (.ok "", unread)) :
    getTokenReddit rt getenv (.response 200 body) code
      = ⟨"", some (.errorf "Request for token was unsuccessful"),
          [outbound getenv code]⟩ := by
  simp [getTokenReddit, decodeRedditTokenResponse, newRequest, hdec, outbound]

/-- An exchange fails exactly when the client call fails, the body is not
decodable, the status is not 200, or the decoded token is empty. -/
theorem getTokenReddit_err_iff (rt : Runtime) (getenv : Getenv) (wire : DoResult)
    (code : String) :
    (getTokenReddit rt getenv wire code).err ≠ none ↔
      ((∃ err, wire = .failed err) ∨
        ∃ statusCode body, wire = .response statusCode body ∧
          ((∃ e, (rt.decode "access_token" body).1 = .error e) ∨ statusCode ≠ 200 ∨
            (rt.decode "access_token" body).1 = .ok "")) := by
  cases wire with
  | failed err => simp [getTokenReddit_failed]
  | response statusCode body =>
    have key : ((∃ err, DoResult.response statusCode body = .failed err) ∨
        ∃ sc b, DoResult.response statusCode body = .response sc b ∧
          ((∃ e, (rt.decode "access_token" b).1 = .error e) ∨ sc ≠ 200 ∨
            (rt.decode "access_token" b).1 = .ok "")) ↔
        ((∃ e, (rt.decode "access_token" body).1 = .error e) ∨ statusCode ≠ 200 ∨
          (rt.decode "access_token" body).1 = .ok "") := by
      constructor
      · rintro (⟨err, h⟩ | ⟨sc, b, h, h2⟩)
        · cases h
        · cases h
          exact h2
      · intro h
        exact Or.inr ⟨_, _, rfl, h⟩
    rw [key]
    rcases hdec : rt.decode "access_token" body with ⟨e | s, unread⟩
    · simp [getTokenReddit_undecodable rt getenv statusCode body unread e code hdec]
    · by_cases hstatus : statusCode = 200
      · subst hstatus
        by_cases hs : s = ""
        · subst hs
          simp [getTokenReddit_empty rt getenv body unread code hdec]
        · simp [getTokenReddit_token rt getenv body unread s code hdec hs, hs]
      · simp [getTokenReddit_status rt getenv statusCode body unread s code hdec hstatus,
          hstatus]

/-- A nil error comes only from a 200 response that decodes to the returned,
non-empty token. -/
theorem getTokenReddit_success_aux (rt : Runtime) (getenv : Getenv) (wire : DoResult)
    (code : String) (h : (getTokenReddit rt getenv wire code).err = none) :
    ∃ body unread, wire = .response 200 body ∧
      rt.decode "access_token" body
        = (.ok (getTokenReddit rt getenv wire code).token, unread) ∧
      (getTokenReddit rt getenv wire code).token ≠ "" := by
  cases wire with
  | failed err => simp [getTokenReddit_failed] at h
  | response statusCode body =>
    rcases hdec : rt.decode "access_token" body with ⟨e | s, unread⟩
    · simp [getTokenReddit_undecodable rt getenv statusCode body unread e code hdec] at h
    · by_cases hstatus : statusCode = 200
      · subst hstatus
        by_cases hs : s = ""
        · subst hs
          simp [getTokenReddit_empty rt getenv body unread code hdec] at h
        · refine ⟨body, unread, rfl, ?_, ?_⟩
          · rw [getTokenReddit_token rt getenv body unread s code hdec hs]
            exact hdec
          · rw [getTokenReddit_token rt getenv body unread s code hdec hs]
            exact hs
      · simp [getTokenReddit_status rt getenv statusCode body unread s code hdec hstatus]
          at h

/-- C1. For every non-empty code and every provider response with status 200
whose body decodes to a non-empty access token `t`, `getTokenReddit` returns
exactly `t` and a nil error. -/
theorem getTokenReddit_returns_token (rt : Runtime) (getenv : Getenv) (code : String)
    (body unread : Bytes) (t : String) (_hcode : code ≠ "")
    (hdec : rt.decode "access_token" body = (.ok t, unread)) (ht : t ≠ "") :
    (getTokenReddit rt getenv (.response 200 body) code).token = t ∧
      (getTokenReddit rt getenv (.response 200 body) code).err = none := by
  rw [getTokenReddit_token rt getenv body unread t code hdec ht]
  exact ⟨rfl, rfl⟩

theorem getTokenReddit_returns_token_witness :
    (getTokenReddit Runtime.std (fun _ => "x")
        (.response 200 (bytes "\x7b\"access_token\": \"abc123\", \"expires_in\": 3600\x7d"))
        "code").token = "abc123" ∧
      (getTokenReddit Runtime.std (fun _ => "x")
        (.response 200 (bytes "\x7b\"access_token\": \"abc123\", \"expires_in\": 3600\x7d"))
        "code").err = none :=
  getTokenReddit_returns_token Runtime.std (fun _ => "x") "code"
    (bytes "\x7b\"access_token\": \"abc123\", \"expires_in\": 3600\x7d") [] "abc123"
    (by decide) (by rfl) (by decide)

/-- C2, the code at a failing input. A provider response with status 503
whose body is not JSON is reported as the parse failure, not as the
status-code failure: the body is decoded before the status is looked at. -/
theorem getTokenReddit_non200_not_json (getenv : Getenv) (code : String) :
    getTokenReddit Runtime.std getenv
        (.response 503 (bytes "<html><body>Service Unavailable</body></html>")) code
      = ⟨"", some (.wrapf "Failed to parse reddit access token body: " .SyntaxError),
          [outbound getenv code]⟩ :=
  getTokenReddit_undecodable Runtime.std getenv 503 _ [] .SyntaxError code (by rfl)

/-- C3. `getTokenReddit` returns a nil error only if the provider answered 200
with a body that decodes to a non-empty access token, which is the token
returned; a 200 response whose access token is empty yields the failure
"Request for token was unsuccessful"; and on every failure the returned token
is the empty string. -/
theorem getTokenReddit_success_only (rt : Runtime) (getenv : Getenv) (wire : DoResult)
    (code : String) :
    ((getTokenReddit rt getenv wire code).err = none →
        ∃ body unread, wire = .response 200 body ∧
          rt.decode "access_token" body
            = (.ok (getTokenReddit rt getenv wire code).token, unread) ∧
          (getTokenReddit rt getenv wire code).token ≠ "") ∧
      (∀ body unread, wire = .response 200 body →
        rt.decode "access_token" body = (.ok "", unread) →
          (getTokenReddit rt getenv wire code).token = "" ∧
          (getTokenReddit rt getenv wire code).err
            = some (.errorf "Request for token was unsuccessful")) ∧
      ((getTokenReddit rt getenv wire code).err ≠ none →
        (getTokenReddit rt getenv wire code).token = "") := by
  refine ⟨?_, ?_, ?_⟩
  · exact getTokenReddit_success_aux rt getenv wire code
  · intro body unread hwire hdec
    subst hwire
    rw [getTokenReddit_empty rt getenv body unread code hdec]
    exact ⟨rfl, rfl⟩
  · intro h
    cases wire with
    | failed err => simp [getTokenReddit_failed]
    | response statusCode body =>
      rcases hdec : rt.decode "access_token" body with ⟨e | s, unread⟩
      · simp [getTokenReddit_undecodable rt getenv statusCode body unread e code hdec]
      · by_cases hstatus : statusCode = 200
        · subst hstatus
          by_cases hs : s = ""
          · subst hs
            simp [getTokenReddit_empty rt getenv body unread code hdec]
          · simp [getTokenReddit_token rt getenv body unread s code hdec hs] at h
        · simp [getTokenReddit_status rt getenv statusCode body unread s code hdec hstatus]

theorem getTokenReddit_success_only_witness :
    (getTokenReddit Runtime.std (fun _ => "x")
        (.response 200 (bytes "\x7b\"token_type\": \"bearer\"\x7d")) "code").token = "" ∧
      (getTokenReddit Runtime.std (fun _ => "x")
        (.response 200 (bytes "\x7b\"token_type\": \"bearer\"\x7d")) "code").err
          = some (.errorf "Request for token was unsuccessful") :=
  (getTokenReddit_success_only Runtime.std (fun _ => "x")
      (.response 200 (bytes "\x7b\"token_type\": \"bearer\"\x7d")) "code").2.1
    (bytes "\x7b\"token_type\": \"bearer\"\x7d") [] rfl (by rfl)

/-- C4, counterexample. A 200 response whose body is an object followed by
other octets is not valid JSON, yet the exchange succeeds with the token of
the object. -/
theorem getTokenReddit_trailing_octets_succeed :
    GoJSON.valid (bytes "\x7b\"access_token\": \"t0k3n\"\x7d trailing") = false ∧
      getTokenReddit Runtime.std (fun _ => "x")
          (.response 200 (bytes "\x7b\"access_token\": \"t0k3n\"\x7d trailing")) "code"
        = ⟨"t0k3n", none, [outbound (fun _ => "x") "code"]⟩ :=
  ⟨by rfl, getTokenReddit_token Runtime.std (fun _ => "x") _ [] "t0k3n" "code" (by rfl)
    (by decide)⟩

/-- C4, amended. For every provider response with status 200 whose body the
JSON decoder rejects, `getTokenReddit` returns the failure "Failed to parse
reddit access token body" wrapping the decoder error, with an empty token. -/
theorem getTokenReddit_parse_failure (rt : Runtime) (getenv : Getenv) (code : String)
    (body unread : Bytes) (e : LibError)
    (hdec : rt.decode "access_token" body = (.error e, unread)) :
    (getTokenReddit rt getenv (.response 200 body) code).token = "" ∧
      (getTokenReddit rt getenv (.response 200 body) code).err
        = some (.wrapf "Failed to parse reddit access token body: " e) := by
  rw [getTokenReddit_undecodable rt getenv 200 body unread e code hdec]
  exact ⟨rfl, rfl⟩

theorem getTokenReddit_parse_failure_witness :
    (getTokenReddit Runtime.std (fun _ => "x") (.response 200 []) "code").token = "" ∧
      (getTokenReddit Runtime.std (fun _ => "x") (.response 200 []) "code").err
        = some (.wrapf "Failed to parse reddit access token body: " .EOF) :=
  getTokenReddit_parse_failure Runtime.std (fun _ => "x") "code" [] [] .EOF (by rfl)

/-- C10, the code on responses with a status other than 200. The failure is
either the parse failure, which has neither the status code nor the body, or
the status failure whose text renders the body without its first 512 octets
(nothing at all of a shorter body): the decoder has read them before the body
is read for the message. -/
theorem getTokenReddit_status_failure_text (getenv : Getenv) (code : String)
    (statusCode : Nat) (body : Bytes) (hstatus : statusCode ≠ 200) :
    (∃ e, (getTokenReddit Runtime.std getenv (.response statusCode body) code).err
        = some (.wrapf "Failed to parse reddit access token body: " e)) ∨
      (∃ n, 512 ≤ n ∧
        (getTokenReddit Runtime.std getenv (.response statusCode body) code).err
          = some (.errorf ("Request for token had an error (status "
              ++ toString statusCode ++ "): " ++ fmtBytes (body.drop n)))) := by
  obtain ⟨n, hn, hun⟩ := GoJSON.decode_unread "access_token" body
  rcases hdec : GoJSON.decode "access_token" body with ⟨e | s, unread⟩
  · left
    exact ⟨e, by rw [getTokenReddit_undecodable Runtime.std getenv statusCode body unread e
      code hdec]⟩
  · right
    rw [hdec] at hun
    simp only at hun
    subst hun
    exact ⟨n, hn, by rw [getTokenReddit_status Runtime.std getenv statusCode body _ s code
      hdec hstatus]⟩

theorem getTokenReddit_status_failure_text_witness :
    (getTokenReddit Runtime.std (fun _ => "x")
        (.response 401 (bytes "\x7b\"message\": \"Unauthorized\", \"error\": 401\x7d"))
        "code").err
      = some (.errorf "Request for token had an error (status 401): []") :=
  (getTokenReddit_status_failure_text (fun _ => "x") "code" 401
      (bytes "\x7b\"message\": \"Unauthorized\", \"error\": 401\x7d") (by decide)).elim
    (fun h => h.elim (fun _ he => absurd he (by
      rw [getTokenReddit_status Runtime.std (fun _ => "x") 401 _ [] "" "code" (by rfl)
        (by decide)]
      simp)))
    (fun h => h.elim (fun n hn => by
      have hdrop : (bytes "\x7b\"message\": \"Unauthorized\", \"error\": 401\x7d").drop n
          = [] := List.drop_eq_nil_of_le (le_trans (by decide) hn.1)
      rw [hn.2, hdrop]
      rfl))

/-! ## Properties of postToken -/

theorem postToken_unbound (rt : Runtime) (getenv : Getenv) (wire : DoResult)
    (inbound : Bytes) (e : LibError) (hbind : bindJSON rt inbound = .error e) :
    postToken rt getenv wire inbound
      = ⟨400, ⟨"error", none, "Malformed request, please try again"⟩, [], []⟩ := by
  simp [postToken, hbind]

theorem postToken_failed (rt : Runtime) (getenv : Getenv) (wire : DoResult)
    (inbound : Bytes) (code : String) (hbind : bindJSON rt inbound = .ok ⟨code⟩)
    (herr : (getTokenReddit rt getenv wire code).err ≠ none) :
    postToken rt getenv wire inbound
      = ⟨500, ⟨"error", none,
          "Unexpected error when authenticating with Reddit, please try again"⟩,
          [code], (getTokenReddit rt getenv wire code).sent⟩ := by
  cases h : (getTokenReddit rt getenv wire code).err with
  | none => exact absurd h herr
  | some err => simp [postToken, hbind, h]

theorem postToken_succeeded (rt : Runtime) (getenv : Getenv) (wire : DoResult)
    (inbound : Bytes) (code : String) (hbind : bindJSON rt inbound = .ok ⟨code⟩)
    (herr : (getTokenReddit rt getenv wire code).err = none) :
    postToken rt getenv wire inbound
      = ⟨200, ⟨"success", some ⟨(getTokenReddit rt getenv wire code).token⟩, ""⟩,
          [code], (getTokenReddit rt getenv wire code).sent⟩ := by
  simp [postToken, hbind, herr]

theorem getTokenReddit_sent (rt : Runtime) (getenv : Getenv) (wire : DoResult)
    (code : String) :
    (getTokenReddit rt getenv wire code).sent = [outbound getenv code] := by
  cases wire with
  | failed err => rw [getTokenReddit_failed]
  | response statusCode body =>
    rcases hdec : rt.decode "access_token" body with ⟨e | s, unread⟩
    · rw [getTokenReddit_undecodable rt getenv statusCode body unread e code hdec]
    · by_cases hstatus : statusCode = 200
      · subst hstatus
        by_cases hs : s = ""
        · subst hs
          rw [getTokenReddit_empty rt getenv body unread code hdec]
        · rw [getTokenReddit_token rt getenv body unread s code hdec hs]
      · rw [getTokenReddit_status rt getenv statusCode body unread s code hdec hstatus]

/-- The error and token of an exchange do not depend on the environment. -/
theorem getTokenReddit_getenv (rt : Runtime) (getenv₁ getenv₂ : Getenv) (wire : DoResult)
    (code : String) :
    (getTokenReddit rt getenv₁ wire code).token = (getTokenReddit rt getenv₂ wire code).token ∧
      (getTokenReddit rt getenv₁ wire code).err = (getTokenReddit rt getenv₂ wire code).err := by
  cases wire with
  | failed err => simp [getTokenReddit_failed]
  | response statusCode body =>
    rcases hdec : rt.decode "access_token" body with ⟨e | s, unread⟩
    · simp [getTokenReddit_undecodable rt _ statusCode body unread e code hdec]
    · by_cases hstatus : statusCode = 200
      · subst hstatus
        by_cases hs : s = ""
        · subst hs
          simp [getTokenReddit_empty rt _ body unread code hdec]
        · simp [getTokenReddit_token rt _ body unread s code hdec hs]
      · simp [getTokenReddit_status rt _ statusCode body unread s code hdec hstatus]

/-- C5, counterexample. On the inbound body `{}` the handler calls
`getTokenReddit` with the empty code, a request goes to the provider, and the
answer is 500, not 400. -/
theorem postToken_empty_object_calls_provider :
    (postToken Runtime.std (fun _ => "x")
        (.response 200 (bytes "\x7b\"error\": \"invalid_grant\"\x7d"))
        (bytes "\x7b\x7d")).status = 500 ∧
      (postToken Runtime.std (fun _ => "x")
        (.response 200 (bytes "\x7b\"error\": \"invalid_grant\"\x7d"))
        (bytes "\x7b\x7d")).exchanges = [""] ∧
      (postToken Runtime.std (fun _ => "x")
        (.response 200 (bytes "\x7b\"error\": \"invalid_grant\"\x7d"))
        (bytes "\x7b\x7d")).sent = [outbound (fun _ => "x") ""] ∧
      ¬ ((postToken Runtime.std (fun _ => "x")
          (.response 200 (bytes "\x7b\"error\": \"invalid_grant\"\x7d"))
          (bytes "\x7b\x7d")).status = 400 ∧
        (postToken Runtime.std (fun _ => "x")
          (.response 200 (bytes "\x7b\"error\": \"invalid_grant\"\x7d"))
          (bytes "\x7b\x7d")).exchanges = []) := by
  have h : postToken Runtime.std (fun _ => "x")
      (.response 200 (bytes "\x7b\"error\": \"invalid_grant\"\x7d")) (bytes "\x7b\x7d")
      = ⟨500, ⟨"error", none,
          "Unexpected error when authenticating with Reddit, please try again"⟩,
          [""], [outbound (fun _ => "x") ""]⟩ := by
    rw [postToken_failed Runtime.std _ _ _ "" (by rfl)
      (by rw [getTokenReddit_empty Runtime.std _ _ [] "" (by rfl)]; simp),
      getTokenReddit_sent]
  rw [h]
  simp

/-- C5, amended. On the inbound body `{}` the handler binds the empty code,
calls `getTokenReddit` with it, one request goes to the provider, and the
answer follows the exchange: 200 with the token on success, 500 with the
generic message on failure, never 400. -/
theorem postToken_binds_empty_object (getenv : Getenv) (wire : DoResult) :
    bindJSON Runtime.std (bytes "\x7b\x7d") = .ok ⟨""⟩ ∧
      (postToken Runtime.std getenv wire (bytes "\x7b\x7d")).exchanges = [""] ∧
      (postToken Runtime.std getenv wire (bytes "\x7b\x7d")).sent = [outbound getenv ""] ∧
      (postToken Runtime.std getenv wire (bytes "\x7b\x7d")).status ≠ 400 ∧
      ((getTokenReddit Runtime.std getenv wire "").err = none ∧
          (postToken Runtime.std getenv wire (bytes "\x7b\x7d")).status = 200 ∧
          (postToken Runtime.std getenv wire (bytes "\x7b\x7d")).body
            = ⟨"success", some ⟨(getTokenReddit Runtime.std getenv wire "").token⟩, ""⟩ ∨
        (getTokenReddit Runtime.std getenv wire "").err ≠ none ∧
          (postToken Runtime.std getenv wire (bytes "\x7b\x7d")).status = 500 ∧
          (postToken Runtime.std getenv wire (bytes "\x7b\x7d")).body
            = ⟨"error", none,
                "Unexpected error when authenticating with Reddit, please try again"⟩) := by
  have hbind : bindJSON Runtime.std (bytes "\x7b\x7d") = .ok ⟨""⟩ := by rfl
  refine ⟨hbind, ?_⟩
  by_cases herr : (getTokenReddit Runtime.std getenv wire "").err = none
  · rw [postToken_succeeded Runtime.std getenv wire _ "" hbind herr, getTokenReddit_sent]
    exact ⟨rfl, rfl, by simp, Or.inl ⟨herr, rfl, rfl⟩⟩
  · rw [postToken_failed Runtime.std getenv wire _ "" hbind herr, getTokenReddit_sent]
    exact ⟨rfl, rfl, by simp, Or.inr ⟨herr, rfl, rfl⟩⟩

/-- C6. For every inbound body that fails to bind, the handler answers 400
with the envelope of status "error" and message "Malformed request, please
try again", serialized without a data member, and neither calls
`getTokenReddit` nor sends a request. -/
theorem postToken_malformed (rt : Runtime) (getenv : Getenv) (wire : DoResult)
    (inbound : Bytes) (e : LibError) (hbind : bindJSON rt inbound = .error e) :
    (postToken rt getenv wire inbound).status = 400 ∧
      (postToken rt getenv wire inbound).body
        = ⟨"error", none, "Malformed request, please try again"⟩ ∧
      (postToken rt getenv wire inbound).body.marshal
        = [("status", .string "error"),
           ("message", .string "Malformed request, please try again")] ∧
      (postToken rt getenv wire inbound).exchanges = [] ∧
      (postToken rt getenv wire inbound).sent = [] := by
  rw [postToken_unbound rt getenv wire inbound e hbind]
  exact ⟨rfl, rfl, by decide, rfl, rfl⟩

theorem postToken_malformed_witness :
    (postToken Runtime.std (fun _ => "x") (.response 200 []) (bytes "code=abc")).status = 400 ∧
      (postToken Runtime.std (fun _ => "x") (.response 200 []) (bytes "code=abc")).body
        = ⟨"error", none, "Malformed request, please try again"⟩ ∧
      (postToken Runtime.std (fun _ => "x") (.response 200 []) (bytes "code=abc")).body.marshal
        = [("status", .string "error"),
           ("message", .string "Malformed request, please try again")] ∧
      (postToken Runtime.std (fun _ => "x") (.response 200 []) (bytes "code=abc")).exchanges
        = [] ∧
      (postToken Runtime.std (fun _ => "x") (.response 200 []) (bytes "code=abc")).sent = [] :=
  postToken_malformed Runtime.std (fun _ => "x") (.response 200 []) (bytes "code=abc")
    .SyntaxError (by rfl)

/-- C7. For every well-formed inbound request whose exchange fails, whatever
the failure, the handler answers 500 with the envelope of status "error" and
message "Unexpected error when authenticating with Reddit, please try again";
two failing runs give the same status code and the same envelope. -/
theorem postToken_failure_generic (rt : Runtime) (getenv₁ getenv₂ : Getenv)
    (wire₁ wire₂ : DoResult) (inbound₁ inbound₂ : Bytes) (code₁ code₂ : String)
    (hbind₁ : bindJSON rt inbound₁ = .ok ⟨code₁⟩)
    (hbind₂ : bindJSON rt inbound₂ = .ok ⟨code₂⟩)
    (herr₁ : (getTokenReddit rt getenv₁ wire₁ code₁).err ≠ none)
    (herr₂ : (getTokenReddit rt getenv₂ wire₂ code₂).err ≠ none) :
    (postToken rt getenv₁ wire₁ inbound₁).status = 500 ∧
      (postToken rt getenv₁ wire₁ inbound₁).body
        = ⟨"error", none,
            "Unexpected error when authenticating with Reddit, please try again"⟩ ∧
      (postToken rt getenv₁ wire₁ inbound₁).body.marshal
        = [("status", .string "error"),
           ("message", .string
             "Unexpected error when authenticating with Reddit, please try again")] ∧
      (postToken rt getenv₂ wire₂ inbound₂).status
        = (postToken rt getenv₁ wire₁ inbound₁).status ∧
      (postToken rt getenv₂ wire₂ inbound₂).body
        = (postToken rt getenv₁ wire₁ inbound₁).body := by
  rw [postToken_failed rt getenv₁ wire₁ inbound₁ code₁ hbind₁ herr₁,
    postToken_failed rt getenv₂ wire₂ inbound₂ code₂ hbind₂ herr₂]
  refine ⟨rfl, rfl, ?_, rfl, rfl⟩
  show Response.marshal ⟨"error", none,
    "Unexpected error when authenticating with Reddit, please try again"⟩ = _
  decide

theorem postToken_failure_generic_witness :
    (postToken Runtime.std (fun _ => "x") (.failed (.transport "connection refused"))
        (bytes "\x7b\"code\": \"abc\"\x7d")).status = 500 ∧
      (postToken Runtime.std (fun _ => "x") (.failed (.transport "connection refused"))
        (bytes "\x7b\"code\": \"abc\"\x7d")).body
        = ⟨"error", none,
            "Unexpected error when authenticating with Reddit, please try again"⟩ ∧
      (postToken Runtime.std (fun _ => "x") (.failed (.transport "connection refused"))
        (bytes "\x7b\"code\": \"abc\"\x7d")).body.marshal
        = [("status", .string "error"),
           ("message", .string
             "Unexpected error when authenticating with Reddit, please try again")] ∧
      (postToken Runtime.std (fun _ => "y")
          (.response 403 (bytes "\x7b\"message\": \"Forbidden\", \"error\": 403\x7d"))
          (bytes "\x7b\"code\": \"xyz\"\x7d")).status
        = (postToken Runtime.std (fun _ => "x") (.failed (.transport "connection refused"))
            (bytes "\x7b\"code\": \"abc\"\x7d")).status ∧
      (postToken Runtime.std (fun _ => "y")
          (.response 403 (bytes "\x7b\"message\": \"Forbidden\", \"error\": 403\x7d"))
          (bytes "\x7b\"code\": \"xyz\"\x7d")).body
        = (postToken Runtime.std (fun _ => "x") (.failed (.transport "connection refused"))
            (bytes "\x7b\"code\": \"abc\"\x7d")).body :=
  postToken_failure_generic Runtime.std (fun _ => "x") (fun _ => "y")
    (.failed (.transport "connection refused"))
    (.response 403 (bytes "\x7b\"message\": \"Forbidden\", \"error\": 403\x7d"))
    (bytes "\x7b\"code\": \"abc\"\x7d") (bytes "\x7b\"code\": \"xyz\"\x7d") "abc" "xyz"
    (by rfl) (by rfl)
    (by rw [getTokenReddit_failed]; simp)
    (by
      rw [getTokenReddit_status Runtime.std _ 403 _ [] "" "xyz" (by rfl) (by decide)]
      simp)

/-- C8. For every well-formed inbound request whose exchange succeeds with
token `t`, the handler answers 200 with the envelope of status "success" and
data carrying exactly `t`, serialized without a message member. -/
theorem postToken_success (rt : Runtime) (getenv : Getenv) (wire : DoResult)
    (inbound : Bytes) (code t : String) (hbind : bindJSON rt inbound = .ok ⟨code⟩)
    (herr : (getTokenReddit rt getenv wire code).err = none)
    (htoken : (getTokenReddit rt getenv wire code).token = t) :
    (postToken rt getenv wire inbound).status = 200 ∧
      (postToken rt getenv wire inbound).body = ⟨"success", some ⟨t⟩, ""⟩ ∧
      (postToken rt getenv wire inbound).body.marshal
        = [("status", .string "success"), ("data", .object [("token", t)])] := by
  rw [postToken_succeeded rt getenv wire inbound code hbind herr, htoken]
  exact ⟨rfl, rfl, rfl⟩

theorem postToken_success_witness :
    (postToken Runtime.std (fun _ => "x")
        (.response 200 (bytes "\x7b\"access_token\": \"abc123\"\x7d"))
        (bytes "\x7b\"code\": \"xyz\"\x7d")).status = 200 ∧
      (postToken Runtime.std (fun _ => "x")
        (.response 200 (bytes "\x7b\"access_token\": \"abc123\"\x7d"))
        (bytes "\x7b\"code\": \"xyz\"\x7d")).body = ⟨"success", some ⟨"abc123"⟩, ""⟩ ∧
      (postToken Runtime.std (fun _ => "x")
        (.response 200 (bytes "\x7b\"access_token\": \"abc123\"\x7d"))
        (bytes "\x7b\"code\": \"xyz\"\x7d")).body.marshal
        = [("status", .string "success"), ("data", .object [("token", "abc123")])] :=
  postToken_success Runtime.std (fun _ => "x")
    (.response 200 (bytes "\x7b\"access_token\": \"abc123\"\x7d"))
    (bytes "\x7b\"code\": \"xyz\"\x7d") "xyz" "abc123" (by rfl)
    (by
      rw [getTokenReddit_token Runtime.std _ _ [] "abc123" "xyz" (by rfl) (by decide)])
    (by
      rw [getTokenReddit_token Runtime.std _ _ [] "abc123" "xyz" (by rfl) (by decide)])

/-- Every text of a response is a literal of the program or the access token
decoded from a 200 response of the provider. -/
theorem postToken_returned (rt : Runtime) (getenv : Getenv) (wire : DoResult)
    (inbound : Bytes) (v : String) (hv : v ∈ (postToken rt getenv wire inbound).returned) :
    v ∈ fixedTexts ∨
      ∃ body unread, wire = .response 200 body ∧
        rt.decode "access_token" body = (.ok v, unread) := by
  cases hbind : bindJSON rt inbound with
  | error e =>
    rw [postToken_unbound rt getenv wire inbound e hbind] at hv
    left
    have h400 : toString (400 : Nat) = "400" := by decide
    simp only [Handled.returned, h400, List.append_nil] at hv
    rcases List.mem_cons.mp hv with h | hv
    · subst h; decide
    rcases List.mem_cons.mp hv with h | hv
    · subst h; decide
    rcases List.mem_cons.mp hv with h | hv
    · subst h; decide
    · cases hv
  | ok tokenRequest =>
    obtain ⟨code⟩ := tokenRequest
    by_cases herr : (getTokenReddit rt getenv wire code).err = none
    · rw [postToken_succeeded rt getenv wire inbound code hbind herr] at hv
      have h200 : toString (200 : Nat) = "200" := by decide
      simp only [Handled.returned, h200] at hv
      rcases List.mem_cons.mp hv with h | hv
      · subst h; left; decide
      rcases List.mem_cons.mp hv with h | hv
      · subst h; left; decide
      rcases List.mem_cons.mp hv with h | hv
      · subst h; left; decide
      rcases List.mem_cons.mp hv with h | hv
      · subst h
        right
        obtain ⟨body, unread, hwire, hdec, _⟩ :=
          (getTokenReddit_success_aux rt getenv wire code) herr
        exact ⟨body, unread, hwire, hdec⟩
      · cases hv
    · rw [postToken_failed rt getenv wire inbound code hbind herr] at hv
      left
      have h500 : toString (500 : Nat) = "500" := by decide
      simp only [Handled.returned, h500, List.append_nil] at hv
      rcases List.mem_cons.mp hv with h | hv
      · subst h; decide
      rcases List.mem_cons.mp hv with h | hv
      · subst h; decide
      rcases List.mem_cons.mp hv with h | hv
      · subst h; decide
      · cases hv

/-- C9, counterexample. When the provider answers with an access token equal
to the configured secret, the secret is in the envelope returned to the
caller. -/
theorem postToken_echoed_secret :
    ∃ v ∈ (postToken Runtime.std
          (fun name => if name = "REDDIT_APPLICATION_SECRET" then "s3cr3t" else "app-id")
          (.response 200 (bytes "\x7b\"access_token\": \"s3cr3t\"\x7d"))
          (bytes "\x7b\"code\": \"xyz\"\x7d")).returned,
      occursIn ((fun name => if name = "REDDIT_APPLICATION_SECRET" then "s3cr3t" else "app-id")
        "REDDIT_APPLICATION_SECRET") v := by
  refine ⟨"s3cr3t", ?_, by decide⟩
  rw [postToken_succeeded Runtime.std _ _ _ "xyz" (by rfl)
    (by rw [getTokenReddit_token Runtime.std _ _ [] "s3cr3t" "xyz" (by rfl) (by decide)]),
    getTokenReddit_token Runtime.std _ _ [] "s3cr3t" "xyz" (by rfl) (by decide)]
  simp [Handled.returned]

/-- C9, amended. The status code and envelope returned to the caller are the
same for any two environments (client id and secret) when the inbound request
and the provider outcome are the same; and if the secret occurs neither in a
literal of the program nor in the access token decoded from the provider
response, it occurs in no text of the response. -/
theorem postToken_response_independent_of_secret (rt : Runtime) (getenv₁ getenv₂ : Getenv)
    (wire : DoResult) (inbound : Bytes) :
    ((postToken rt getenv₁ wire inbound).status = (postToken rt getenv₂ wire inbound).status ∧
        (postToken rt getenv₁ wire inbound).body = (postToken rt getenv₂ wire inbound).body) ∧
      ((∀ l ∈ fixedTexts, ¬ occursIn (getenv₁ "REDDIT_APPLICATION_SECRET") l) →
        (∀ body unread t, wire = .response 200 body →
          rt.decode "access_token" body = (.ok t, unread) →
            ¬ occursIn (getenv₁ "REDDIT_APPLICATION_SECRET") t) →
        ∀ v ∈ (postToken rt getenv₁ wire inbound).returned,
          ¬ occursIn (getenv₁ "REDDIT_APPLICATION_SECRET") v) := by
  constructor
  · cases hbind : bindJSON rt inbound with
    | error e =>
      rw [postToken_unbound rt getenv₁ wire inbound e hbind,
        postToken_unbound rt getenv₂ wire inbound e hbind]
      exact ⟨rfl, rfl⟩
    | ok tokenRequest =>
      obtain ⟨code⟩ := tokenRequest
      obtain ⟨htok, herrs⟩ := getTokenReddit_getenv rt getenv₁ getenv₂ wire code
      by_cases herr : (getTokenReddit rt getenv₁ wire code).err = none
      · rw [postToken_succeeded rt getenv₁ wire inbound code hbind herr,
          postToken_succeeded rt getenv₂ wire inbound code hbind (herrs ▸ herr), htok]
        exact ⟨rfl, rfl⟩
      · rw [postToken_failed rt getenv₁ wire inbound code hbind herr,
          postToken_failed rt getenv₂ wire inbound code hbind (herrs ▸ herr)]
        exact ⟨rfl, rfl⟩
  · intro hfixed htoken v hv
    rcases postToken_returned rt getenv₁ wire inbound v hv with h | ⟨body, unread, hw, hd⟩
    · exact hfixed v h
    · exact htoken body unread v hw hd

theorem postToken_response_independent_of_secret_witness :
    ∀ v ∈ (postToken Runtime.std
          (fun name => if name = "REDDIT_APPLICATION_SECRET" then "s3cr3t" else "app-id")
          (.response 200 (bytes "\x7b\"access_token\": \"abc123\"\x7d"))
          (bytes "\x7b\"code\": \"xyz\"\x7d")).returned,
      ¬ occursIn ((fun name => if name = "REDDIT_APPLICATION_SECRET" then "s3cr3t" else "app-id")
        "REDDIT_APPLICATION_SECRET") v :=
  (postToken_response_independent_of_secret Runtime.std
      (fun name => if name = "REDDIT_APPLICATION_SECRET" then "s3cr3t" else "app-id")
      (fun _ => "other")
      (.response 200 (bytes "\x7b\"access_token\": \"abc123\"\x7d"))
      (bytes "\x7b\"code\": \"xyz\"\x7d")).2
    (by decide)
    (by
      intro body unread t hwire hdec
      cases hwire
      have h : Runtime.std.decode "access_token"
          (bytes "\x7b\"access_token\": \"abc123\"\x7d") = (.ok "abc123", []) := by rfl
      rw [h] at hdec
      cases hdec
      decide)

end Authorizer
